import Mathlib

/-!
Verification of the coordinate-frame transformation and trajectory-extraction
pipeline of the nuScenes-to-XVIZ converter (`work/convert_v3`, `work/converter_v1`,
`work/converter_v2`).

Conventions of the shallow embedding:
* Exact rational arithmetic (`ℚ`) stands in for Python floats; integer microsecond
  timestamps are `ℤ`.
* Comparisons of Euclidean norms in the source (`np.linalg.norm v > 0`,
  `np.linalg.norm v < 0.1`) are embedded as the equivalent comparisons of
  squared norms (`0 < ‖v‖²`, `‖v‖² < 1/100`), which avoids square roots while
  agreeing exactly with the source's tests.
* Fallible paths (`return None`) become `Option`; a raised exception becomes
  `Except.error`.
-/

namespace NuXviz

/-- 3-vector with exact rational coordinates (embeds the `[x, y, z]` arrays). -/
structure Vec3 where
  x : ℚ
  y : ℚ
  z : ℚ
deriving DecidableEq, Repr, Inhabited

/-- Component-wise vector addition. -/
def vadd (a b : Vec3) : Vec3 := ⟨a.x + b.x, a.y + b.y, a.z + b.z⟩

/-- Component-wise vector subtraction. -/
def vsub (a b : Vec3) : Vec3 := ⟨a.x - b.x, a.y - b.y, a.z - b.z⟩

/-- Scalar multiple of a vector. -/
def vsmul (c : ℚ) (a : Vec3) : Vec3 := ⟨c * a.x, c * a.y, c * a.z⟩

/-- Squared Euclidean norm; `np.linalg.norm v ⋈ c` (for `c ≥ 0`) is embedded as
`vnormSq v ⋈ c²`. -/
def vnormSq (a : Vec3) : ℚ := a.x ^ 2 + a.y ^ 2 + a.z ^ 2

/-- Scalar-first quaternion `(w, x, y, z)` over `ℚ` (embeds `pyquaternion.Quaternion`
and the raw nuScenes `rotation` records). -/
structure Quat where
  w : ℚ
  x : ℚ
  y : ℚ
  z : ℚ
deriving DecidableEq, Repr, Inhabited

/-- Hamilton product of quaternions. -/
def qmul (a b : Quat) : Quat :=
  ⟨a.w * b.w - a.x * b.x - a.y * b.y - a.z * b.z,
   a.w * b.x + a.x * b.w + a.y * b.z - a.z * b.y,
   a.w * b.y - a.x * b.z + a.y * b.w + a.z * b.x,
   a.w * b.z + a.x * b.y - a.y * b.x + a.z * b.w⟩

/-- Quaternion conjugate. -/
def qconj (a : Quat) : Quat := ⟨a.w, -a.x, -a.y, -a.z⟩

/-- Squared norm `w² + x² + y² + z²` of a quaternion. -/
def qnormSq (a : Quat) : ℚ := a.w ^ 2 + a.x ^ 2 + a.y ^ 2 + a.z ^ 2

/-- `pyquaternion`'s `Quaternion.inverse`: the conjugate divided by the squared
norm. -/
def qinv (a : Quat) : Quat :=
  let n := qnormSq a
  ⟨a.w / n, -a.x / n, -a.y / n, -a.z / n⟩

/-- Pure quaternion with the given vector part. -/
def quatOfVec (v : Vec3) : Quat := ⟨0, v.x, v.y, v.z⟩

/-- Vector part of a quaternion. -/
def vecOfQuat (a : Quat) : Vec3 := ⟨a.x, a.y, a.z⟩

/-- `pyquaternion`'s `Quaternion.rotate`: conjugation `q ⬝ (0, v) ⬝ q̄`, taking the
vector part.  (`rotate` first normalises the quaternion; the poses the converters
supply are unit quaternions — spec §4.1: "caller guarantees normalization" — so
normalisation is the identity and the theorems below carry the unit-norm
hypothesis explicitly.) -/
def qrotate (q : Quat) (v : Vec3) : Vec3 :=
  vecOfQuat (qmul (qmul q (quatOfVec v)) (qconj q))

/-- `work/converter_v2/utils.py` lines 26–50, `global_to_vehicle_frame`:
translate by the ego position, then rotate by the inverse of the ego
orientation. -/
def global_to_vehicle_frame (point ego_translation : Vec3) (ego_rotation : Quat) : Vec3 :=
  qrotate (qinv ego_rotation) (vsub point ego_translation)

/-- `work/converter_v2/utils.py` lines 53–73, `vehicle_to_global_frame`: rotate
by the ego orientation, then translate to the global position. -/
def vehicle_to_global_frame (point ego_translation : Vec3) (ego_rotation : Quat) : Vec3 :=
  vadd (qrotate ego_rotation point) ego_translation

/-- `work/converter_v1/utils.py` lines 4–24, `quaternion_to_euler_angle`: the
intermediate sine term `t2 = -2 (x z - w y)` before clamping. -/
def eulerSineTerm (rotation : Quat) : ℚ :=
  -2 * (rotation.x * rotation.z - rotation.w * rotation.y)

/-- `work/converter_v1/utils.py` lines 17–18: clamp `t2` to `[-1, 1]`
(`t2 = 1.0 if t2 > 1.0 else t2; t2 = -1.0 if t2 < -1.0 else t2`) before
`np.arcsin`. -/
def eulerSineTermClamped (rotation : Quat) : ℚ :=
  if eulerSineTerm rotation > 1 then 1
  else if eulerSineTerm rotation < -1 then -1
  else eulerSineTerm rotation

/-- A nuScenes `sample_annotation` record, reduced to the fields the converters
consult: `token` (the per-frame annotation id), `instTok` (the stable
`instance_token`), `category_name`, and the box geometry
(`translation`, `rotation`, `size`, plus the optional `velocity` field that
`ann.get('velocity', [0, 0, 0])` defaults to zero). -/
structure SampleAnn where
  token : String
  instTok : String
  categoryName : String
  translation : Vec3 := ⟨0, 0, 0⟩
  rotation : Quat := ⟨1, 0, 0, 0⟩
  size : Vec3 := ⟨1, 1, 1⟩
  velocity : Vec3 := ⟨0, 0, 0⟩
deriving DecidableEq, Repr, Inhabited

/-- The `CATEGORY_MAPPING` table, defined identically in
`work/convert_v3/converters/annotation_converter.py` lines 8–23 and
`work/converter_v1/converter/annotation_converter.py` lines 7–23. -/
def CATEGORY_MAPPING : String → Option String
  | "movable_object.barrier" => some "barrier"
  | "vehicle.bicycle" => some "bicycle"
  | "vehicle.bus.bendy" => some "bus"
  | "vehicle.bus.rigid" => some "bus"
  | "vehicle.car" => some "car"
  | "vehicle.construction" => some "construction_vehicle"
  | "vehicle.motorcycle" => some "motorcycle"
  | "human.pedestrian.adult" => some "pedestrian"
  | "human.pedestrian.child" => some "pedestrian"
  | "human.pedestrian.construction_worker" => some "pedestrian"
  | "human.pedestrian.police_officer" => some "pedestrian"
  | "movable_object.trafficcone" => some "traffic_cone"
  | "vehicle.trailer" => some "trailer"
  | "vehicle.truck" => some "truck"
  | _ => none

/-- `work/convert_v3/converters/annotation_converter.py` lines 142–174
(`AnnotationConverter.convert`): for each annotation whose category maps, a
Polygon primitive is emitted on stream `/annotations/<category>` with
`.id(ann['token'])` — the per-frame annotation token.  (`_get_3d_bbox` always
returns vertices, so no annotation is dropped at that step.)  Each emitted
primitive is rendered as a `(stream, id)` pair. -/
def v3AnnPolygonPrims (anns : List SampleAnn) : List (String × String) :=
  anns.filterMap (fun a =>
    (CATEGORY_MAPPING a.categoryName).map (fun c => ("/annotations/" ++ c, a.token)))

/-- `work/converter_v1/converter/annotation_converter.py` lines 49–57 keep, per
frame, a dict keyed by `instance_token` (a later annotation of the same instance
overwrites an earlier one, preserving insertion position). -/
def v1UpdByInst (m : List (String × SampleAnn)) (a : SampleAnn) : List (String × SampleAnn) :=
  if m.any (fun p => p.1 == a.instTok) then
    m.map (fun p => if p.1 == a.instTok then (a.instTok, a) else p)
  else
    m ++ [(a.instTok, a)]

/-- `work/converter_v1/converter/annotation_converter.py` `init` (lines 49–57):
annotations with an unmapped category are skipped; the rest populate the
per-frame dict keyed by instance token. -/
def v1FrameAnns (anns : List SampleAnn) : List (String × SampleAnn) :=
  anns.foldl (fun m a =>
    if (CATEGORY_MAPPING a.categoryName).isSome then v1UpdByInst m a else m) []

/-- `work/converter_v1/converter/annotation_converter.py` lines 71–80
(`convert`): each stored annotation's footprint polygon is emitted with
`.id(anno["token"])` — the per-frame annotation token. -/
def v1AnnPolygonIds (anns : List SampleAnn) : List String :=
  (v1FrameAnns anns).map (fun p => p.2.token)

/-- `work/converter_v2/converters/annotation_converter.py` lines 168–172
(`_convert_bbox`): `object_id = instance_token` is the id this variant passes to
`.id(object_id)`. -/
def v2ObjectId (a : SampleAnn) : String := a.instTok

/-- `work/converter_v2/converters/annotation_converter.py` lines 156–181: the
assignments of `center_vehicle` (line 157) and `yaw` (lines 160–162) are
commented out, yet both names are read when building the polygon argument list
(lines 178–180), so `_convert_bbox` raises `NameError` before any primitive is
emitted.  The raised exception is embedded as `Except.error`. -/
def v2ConvertBboxResult : Except String Unit :=
  Except.error "NameError: name center_vehicle is not defined"

/-- Concrete annotation used to exercise the id-tagging paths: per-frame token
`"ann1"`, stable instance token `"inst1"`, category `vehicle.car`. -/
def exCarAnn : SampleAnn :=
  { token := "ann1", instTok := "inst1", categoryName := "vehicle.car" }

/-- A frame descriptor as seen by converter_v2's annotation converters: the
frame's microsecond timestamp plus the frame's annotations (resolved through
`sample['anns']`). -/
structure FrameRec where
  timestamp : ℤ
  anns : List SampleAnn
deriving DecidableEq, Repr, Inhabited

/-- One object-track sample appended by converter_v2's
`AnnotationConverter._build_object_trajectories` (lines 99–104): the frame's
microsecond timestamp plus the annotation's translation, rotation and size. -/
structure ObjSample where
  timestamp : ℤ
  translation : Vec3
  rotation : Quat
  size : Vec3
deriving DecidableEq, Repr, Inhabited

/-- The samples accumulated for one instance by the scan of
`_build_object_trajectories` (lines 84–104): iterating the frames in the order
presented, every annotation of the instance appends one sample carrying the
frame's timestamp.  (The Python dict keyed by `instance_token` holds, for a
fixed instance, exactly this append-ordered list.) -/
def trackSamplesOf (frames : List FrameRec) (inst : String) : List ObjSample :=
  frames.flatMap fun f =>
    (f.anns.filter fun a => a.instTok == inst).map fun a =>
      ⟨f.timestamp, a.translation, a.rotation, a.size⟩

/-- `work/converter_v2/converters/annotation_converter.py` lines 106–108: after
the scan, each instance's sample list is sorted by timestamp
(`sort(key=lambda x: x['timestamp'])`, a stable sort). -/
def buildTrack (frames : List FrameRec) (inst : String) : List ObjSample :=
  (trackSamplesOf frames inst).mergeSort (fun a b => a.timestamp ≤ b.timestamp)

/-- `work/converter_v2/converters/annotation_converter.py` line 206: the
3-second history window, in microseconds. -/
def timeWindowMicros : ℤ := 3000000

/-- `work/converter_v2/converters/annotation_converter.py` lines 204–210
(`_convert_trajectory`): keep the track points with
`current_timestamp >= point['timestamp'] >= current_timestamp - time_window`. -/
def filterPastTrajectory (traj : List ObjSample) (currentTs : ℤ) : List ObjSample :=
  traj.filter fun p => currentTs ≥ p.timestamp ∧ p.timestamp ≥ currentTs - timeWindowMicros

/-- `work/converter_v2/converters/annotation_converter.py` lines 212–214: if
fewer than 2 points fall in the window the Polyline is not emitted. -/
def trajectoryEmitted (traj : List ObjSample) (currentTs : ℤ) : Bool :=
  if (filterPastTrajectory traj currentTs).length < 2 then false else true

/-- Concrete track with samples at t = 0, 1, 2, 3, 4 seconds (in microseconds),
used for the window-closure scenario of the spec. -/
def exTrackC5 : List ObjSample :=
  [⟨0, ⟨0, 0, 0⟩, ⟨1, 0, 0, 0⟩, ⟨1, 1, 1⟩⟩,
   ⟨1000000, ⟨1, 0, 0⟩, ⟨1, 0, 0, 0⟩, ⟨1, 1, 1⟩⟩,
   ⟨2000000, ⟨2, 0, 0⟩, ⟨1, 0, 0, 0⟩, ⟨1, 1, 1⟩⟩,
   ⟨3000000, ⟨3, 0, 0⟩, ⟨1, 0, 0, 0⟩, ⟨1, 1, 1⟩⟩,
   ⟨4000000, ⟨4, 0, 0⟩, ⟨1, 0, 0, 0⟩, ⟨1, 1, 1⟩⟩]

/-- Concrete out-of-order frame list (timestamps 2 s, 0 s, 1 s) in which the
instance `"obj"` appears once per frame; exercises the track builder. -/
def exFramesC6 : List FrameRec :=
  [⟨2000000, [{ token := "a2", instTok := "obj", categoryName := "vehicle.car",
                translation := ⟨2, 0, 0⟩ }]⟩,
   ⟨0, [{ token := "a0", instTok := "obj", categoryName := "vehicle.car",
          translation := ⟨0, 0, 0⟩ }]⟩,
   ⟨1000000, [{ token := "a1", instTok := "obj", categoryName := "vehicle.car",
                translation := ⟨1, 0, 0⟩ }]⟩]

/-- `work/convert_v3/converters/nuscenes_converter.py` line 72
(`_load_scene_data`): the frame timestamp exposed by the interface is
`lidar_data['timestamp'] / 1e6`; `convert_v3/converters/pose_converter.py`
line 39 emits this value unchanged with the vehicle pose. -/
def v3FrameTimestamp (lidarTsMicros : ℤ) : ℚ := (lidarTsMicros : ℚ) / 1000000

/-- `work/converter_v2/nuscenes_converter.py` line 151 stores the raw
microsecond sample timestamp on the frame, and
`work/converter_v2/converters/pose_converter.py` line 171 (`_convert_pose`)
divides it by 1e6 exactly once when building the emitted pose. -/
def v2PoseTimestamp (frameTsMicros : ℤ) : ℚ := (frameTsMicros : ℚ) / 1000000

/-- `work/converter_v1/converter/nuscenes_converter.py` line 46: the frame
timestamp (also used for metadata start/end time and the per-message
`xviz_builder.timestamp`) is `lidar_data['timestamp'] / 1e6`. -/
def v1FrameTimestamp (lidarTsMicros : ℤ) : ℚ := (lidarTsMicros : ℚ) / 1000000

/-- One object-track entry appended by converter_v2's
`FutureAnnoConverter._build_object_trajectories` (lines 51–83): frame
timestamp, translation, rotation, size, and the declared `velocity` field
(`ann.get('velocity', [0, 0, 0])` defaults to the zero vector when absent). -/
structure TrackPoint where
  timestamp : ℤ
  translation : Vec3
  rotation : Quat
  size : Vec3
  velocity : Vec3
deriving DecidableEq, Repr, Inhabited

/-- `[velocity[0], velocity[1], 0.0]`: keep the planar components and zero the
vertical one. -/
def planarize (v : Vec3) : Vec3 := ⟨v.x, v.y, 0⟩

/-- The per-instance scan of `FutureAnnoConverter._build_object_trajectories`
(lines 60–77), analogous to the annotation converter's builder but also
carrying the declared velocity. -/
def futureTrackSamplesOf (frames : List FrameRec) (inst : String) : List TrackPoint :=
  frames.flatMap fun f =>
    (f.anns.filter fun a => a.instTok == inst).map fun a =>
      ⟨f.timestamp, a.translation, a.rotation, a.size, a.velocity⟩

/-- `FutureAnnoConverter._build_object_trajectories` lines 79–81: sort each
instance's entries by timestamp. -/
def futureBuildTrack (frames : List FrameRec) (inst : String) : List TrackPoint :=
  (futureTrackSamplesOf frames inst).mergeSort (fun a b => a.timestamp ≤ b.timestamp)

/-- `work/converter_v2/converters/furture_anno_converter.py` lines 194–235
(`_estimate_velocity`).  Priority: the declared velocity when
`np.linalg.norm(current_point['velocity']) > 0` (embedded as
`0 < vnormSq …`), planarized to `[vx, vy, 0]`; otherwise the finite difference
over the most recent `lookback = min(3, i + 1)` samples —
`positions[-1] - positions[0]` is `traj[i] - traj[i + 1 - lookback]` — returning
`None` when `lookback < 2` or when the elapsed time `(Δts)/1e6` seconds is
under the `0.01` guard. -/
def estimateVelocity (traj : List TrackPoint) (i : ℕ) : Option Vec3 :=
  if 0 < vnormSq (traj.getD i default).velocity then
    some (planarize (traj.getD i default).velocity)
  else if min 3 (i + 1) < 2 then none
  else if (((traj.getD i default).timestamp
        - (traj.getD (i + 1 - min 3 (i + 1)) default).timestamp : ℤ) : ℚ) / 1000000
      < 1 / 100 then none
  else some (planarize (vsmul
    (1 / ((((traj.getD i default).timestamp
        - (traj.getD (i + 1 - min 3 (i + 1)) default).timestamp : ℤ) : ℚ) / 1000000))
    (vsub (traj.getD i default).translation
      (traj.getD (i + 1 - min 3 (i + 1)) default).translation)))

/-- `furture_anno_converter.py` lines 34–37: horizon 3.0 s over 6 steps. -/
def predictionSteps : ℕ := 6

/-- `time_step = prediction_horizon / prediction_steps = 0.5` s. -/
def timeStep : ℚ := 3 / 6

/-- A predicted future pose (lines 186–190): timestamp, translation, and the
orientation held constant. -/
structure FuturePoint where
  timestamp : ℤ
  translation : Vec3
  rotation : Quat
deriving DecidableEq, Repr, Inhabited

/-- `furture_anno_converter.py` lines 176–192: for `step = 1 … 6`,
`dt = step * time_step` and `future_pos = current_position + velocity * dt`,
rotation unchanged; `int(dt * 1e6)` is exactly `500000 * step` because
`dt = step/2` is exact in binary floating point. -/
def projectFuture (currentTs : ℤ) (pos : Vec3) (rot : Quat) (vel : Vec3) :
    List FuturePoint :=
  (List.range predictionSteps).map fun s : ℕ =>
    ⟨currentTs + 500000 * ((s : ℤ) + 1),
     vadd pos (vsmul (((s : ℚ) + 1) * timeStep) vel),
     rot⟩

/-- `self.object_trajectories` lookup (`if instance_token not in …`): the
trajectory map as an association list. -/
def lookupTraj (trajMap : List (String × List TrackPoint))
    (inst : String) : Option (List TrackPoint) :=
  (trajMap.find? fun p => p.1 == inst).map fun p => p.2

/-- `furture_anno_converter.py` lines 132–192 (`_predict_future_positions`):
`None` when the instance is not in the trajectory map, when no trajectory entry
has the current timestamp, when `_estimate_velocity` returns `None`, or when
`np.linalg.norm(velocity) < 0.1` (embedded as `vnormSq v < 1/100`); otherwise
the six projected future poses. -/
def predictFuturePositions (trajMap : List (String × List TrackPoint))
    (inst : String) (currentTs : ℤ) : Option (List FuturePoint) :=
  match lookupTraj trajMap inst with
  | none => none
  | some traj =>
    match traj.findIdx? (fun p => p.timestamp == currentTs) with
    | none => none
    | some i =>
      match estimateVelocity traj i with
      | none => none
      | some v =>
        if vnormSq v < 1 / 100 then none
        else
          some (projectFuture currentTs (traj.getD i default).translation
            (traj.getD i default).rotation v)

/-- `furture_anno_converter.py` lines 101–130 (`convert_message`): the future
trajectory Polyline and future box Polygon are both emitted for an instance
exactly when `_predict_future_positions` returns a non-empty list. -/
def futurePrimitivesEmitted (trajMap : List (String × List TrackPoint))
    (inst : String) (currentTs : ℤ) : Bool :=
  match predictFuturePositions trajMap inst currentTs with
  | none => false
  | some l => !l.isEmpty

/-- `furture_anno_converter.py` lines 281–303 (`_convert_future_boxes`): only
the final predicted step's footprint is emitted, centred at the vehicle-frame
transform of `future_positions[-1]`. -/
def futureBoxCenter (fps : List FuturePoint) (egoT : Vec3) (egoQ : Quat) :
    Option Vec3 :=
  fps.getLast?.map fun fp => global_to_vehicle_frame fp.translation egoT egoQ

/-- The finite-difference estimate as the spec words it: total displacement over
elapsed time between the first and last sample of the look-back window,
`none` when the window holds fewer than 2 samples or the elapsed time is below
the 0.01 s minimum-time-delta guard; the result is planar (z = 0).  This is the
spec-side definition compared against `estimateVelocity`. -/
def specFinite (first last : TrackPoint) (nSamples : ℕ) : Option Vec3 :=
  if nSamples < 2 then none
  else if ((last.timestamp - first.timestamp : ℤ) : ℚ) / 1000000 < 1 / 100 then none
  else some (planarize (vsmul
    (1 / (((last.timestamp - first.timestamp : ℤ) : ℚ) / 1000000))
    (vsub last.translation first.translation)))

/-- The look-back window as the spec words it: the most recent up-to-3 samples
ending at the current index. -/
def specWindow (traj : List TrackPoint) (i : ℕ) : List TrackPoint :=
  (traj.take (i + 1)).drop (i + 1 - min 3 (i + 1))

/-- The velocity fallback chain as the spec words it (§4.5): (a) the declared
velocity field when present and non-negligible in magnitude, planarized;
(b) otherwise the finite difference over the look-back window.  Spec-side
definition compared against `estimateVelocity`. -/
def specVelocity (traj : List TrackPoint) (i : ℕ) : Option Vec3 :=
  if 0 < vnormSq (traj.getD i default).velocity then
    some (planarize (traj.getD i default).velocity)
  else
    (specWindow traj i).head?.bind fun first =>
      (specWindow traj i).getLast?.bind fun last =>
        specFinite first last (specWindow traj i).length

/-- The skip condition as the spec words it: no future primitives for an
instance exactly when the instance is absent from the track map, no track entry
carries the current timestamp, the velocity estimate fails (window below 2
samples, or elapsed time under the guard), or the estimated speed is below the
0.1 m/s stationary threshold (embedded as `vnormSq v < 1/100`).  Spec-side
definition compared against `futurePrimitivesEmitted`. -/
def specSkip (trajMap : List (String × List TrackPoint))
    (inst : String) (ts : ℤ) : Prop :=
  lookupTraj trajMap inst = none
  ∨ ∃ traj, lookupTraj trajMap inst = some traj ∧
      ((∀ p ∈ traj, p.timestamp ≠ ts)
       ∨ ∃ i, traj.findIdx? (fun p => p.timestamp == ts) = some i ∧
           (specVelocity traj i = none
            ∨ ∃ v, specVelocity traj i = some v ∧ vnormSq v < 1 / 100))

/-- Concrete track point at t = 0 with declared velocity `(2, 0, 0)` m/s,
positioned at the origin. -/
def exFutureTrackPoint : TrackPoint :=
  ⟨0, ⟨0, 0, 0⟩, ⟨1, 0, 0, 0⟩, ⟨1, 1, 1⟩, ⟨2, 0, 0⟩⟩

/-- Concrete trajectory map holding instance `"obj"` with the single track
point above. -/
def exTrajMapC3 : List (String × List TrackPoint) := [("obj", [exFutureTrackPoint])]

/-- `work/convert_v3/converters/pose_converter.py` lines 51–61
(`_get_vehicle_trajectory`): with `lookahead = 6` and
`end_index = min(len(self.frames), frame_index + lookahead)`, the trajectory
collects the ego positions of frames `frame_index … end_index - 1` in order. -/
def getVehicleTrajectory (poses : List Vec3) (frameIndex : ℕ) : List Vec3 :=
  (List.range' frameIndex (min poses.length (frameIndex + 6) - frameIndex)).map
    fun i => poses.getD i default

/-- `work/convert_v3/converters/pose_converter.py` lines 44–49: the ego
trajectory Polyline is emitted whenever the list is non-empty
(`if trajectory:`) — no 2-point minimum. -/
def vehicleTrajectoryEmitted (poses : List Vec3) (frameIndex : ℕ) : Bool :=
  !(getVehicleTrajectory poses frameIndex).isEmpty

/-- `work/convert_v3/converters/annotation_converter.py` line 231: object
historical trajectories, in contrast, are emitted only when
`len(trajectory) > 1`. -/
def objectTrajectoryEmitGuard (n : ℕ) : Bool := 1 < n

/-- Planar direction vector (the longest minimum-rotated-rectangle edge
`rect_v[longest_v_i]` that `_union_ped`'s `get_rec_direction` extracts — the
extraction itself relies on the shapely collaborator and is taken as input
here). -/
structure Vec2 where
  x : ℚ
  y : ℚ
deriving DecidableEq, Repr, Inhabited

/-- Planar dot product `pgeom_v.dot(o_v)`. -/
def dot2 (v w : Vec2) : ℚ := v.x * w.x + v.y * w.y

/-- Squared planar norm; `np.linalg.norm` comparisons are embedded through it. -/
def normSq2 (v : Vec2) : ℚ := v.x ^ 2 + v.y ^ 2

/-- `work/convert_v3/map_utils.py` lines 65–66:
`cos = pgeom_v.dot(o_v) / (pgeom_v_norm * o_v_norm)` and the merge test
`1 - np.abs(cos) < 0.01`.  For nonzero vectors this is algebraically equivalent
to the square-root-free test `9801·‖v‖²·‖w‖² < 10000·(v⬝w)²` used here (the
equivalence is proved below), which keeps the embedding exact over `ℚ`. -/
def mergeCond (v w : Vec2) : Bool :=
  decide (9801 * normSq2 v * normSq2 w < 10000 * (dot2 v w) ^ 2)

/-- `map_utils.py` lines 59–68: the inner candidate loop of `_union_ped` —
skip candidates already merged or equal to the leader
(`if o_idx not in remain_idx or o_idx == i: continue`), merge the candidate into
the leader's group when the cosine criterion holds, removing it from
`remain_idx`.  The state is `(merged candidate indices, remaining indices)`. -/
def pedInnerStep (dirI : Vec2) (dirs : List Vec2) (i : ℕ)
    (acc : List ℕ × List ℕ) (j : ℕ) : List ℕ × List ℕ :=
  if j ∈ acc.2 ∧ j ≠ i then
    if mergeCond dirI (dirs.getD j default) then (acc.1 ++ [j], acc.2.erase j)
    else acc
  else acc

/-- `map_utils.py` lines 39–68: the outer loop of `_union_ped` — a polygon not
yet merged becomes a group leader, is removed from `remain_idx`, and absorbs
every spatial-index candidate (`tree.query(pgeom)`, abstracted as the
`neighbors` function) passing the criterion against the leader's direction. -/
def pedOuterStep (dirs : List Vec2) (neighbors : ℕ → List ℕ)
    (st : List (List ℕ) × List ℕ) (i : ℕ) : List (List ℕ) × List ℕ :=
  if i ∈ st.2 then
    (st.1 ++ [i :: ((neighbors i).foldl (pedInnerStep (dirs.getD i default) dirs i)
        ([], st.2.erase i)).1],
     ((neighbors i).foldl (pedInnerStep (dirs.getD i default) dirs i)
        ([], st.2.erase i)).2)
  else st

/-- `map_utils.py` lines 13–73, `_union_ped`, reduced to which input polygons
merge into which group: each resulting group lists the indices of the original
polygons union-ed together (leader first). -/
def unionPedGroups (dirs : List Vec2) (neighbors : ℕ → List ℕ) : List (List ℕ) :=
  ((List.range dirs.length).foldl (pedOuterStep dirs neighbors)
    ([], List.range dirs.length)).1

/-- `work/converter_v1/converter/coordinate_converter.py` lines 23 and 26
(`init`): `timestamp = ego_pose['timestamp'] / 1e6` followed by
`timestamp=timestamp / 1e6` inside the stored per-frame pose record, the value
later emitted via `xb.pose(...).timestamp(...)` — the division by 1e6 is applied
twice. -/
def v1PoseTimestamp (egoTsMicros : ℤ) : ℚ := ((egoTsMicros : ℚ) / 1000000) / 1000000

end NuXviz

namespace NuXviz

theorem qmul_assoc (a b c : Quat) : qmul (qmul a b) c = qmul a (qmul b c) := by
  simp only [qmul, Quat.mk.injEq]
  refine ⟨by ring, by ring, by ring, by ring⟩

theorem qmul_qconj_self (q : Quat) : qmul q (qconj q) = ⟨qnormSq q, 0, 0, 0⟩ := by
  simp only [qmul, qconj, qnormSq, Quat.mk.injEq]
  refine ⟨by ring, by ring, by ring, by ring⟩

theorem qconj_qmul_self (q : Quat) : qmul (qconj q) q = ⟨qnormSq q, 0, 0, 0⟩ := by
  simp only [qmul, qconj, qnormSq, Quat.mk.injEq]
  refine ⟨by ring, by ring, by ring, by ring⟩

theorem qinv_eq_qconj (q : Quat) (h : qnormSq q = 1) : qinv q = qconj q := by
  simp only [qinv, qconj, h, Quat.mk.injEq]
  refine ⟨by ring, by ring, by ring, by ring⟩

theorem sandwich_w_eq_zero (q : Quat) (v : Vec3) :
    (qmul (qmul q (quatOfVec v)) (qconj q)).w = 0 := by
  simp only [qmul, qconj, quatOfVec]
  ring

theorem quatOfVec_vecOfQuat (a : Quat) (hw : a.w = 0) : quatOfVec (vecOfQuat a) = a := by
  cases a with
  | mk w x y z => simpa [quatOfVec, vecOfQuat] using hw.symm

theorem qrotate_qrotate (a b : Quat) (v : Vec3) :
    qrotate a (qrotate b v) = qrotate (qmul a b) v := by
  unfold qrotate
  rw [quatOfVec_vecOfQuat _ (sandwich_w_eq_zero b v)]
  have hconj : qconj (qmul a b) = qmul (qconj b) (qconj a) := by
    simp only [qmul, qconj, Quat.mk.injEq]
    refine ⟨by ring, by ring, by ring, by ring⟩
  rw [hconj, ← qmul_assoc, ← qmul_assoc, ← qmul_assoc]

theorem qrotate_scalar_one (v : Vec3) : qrotate ⟨1, 0, 0, 0⟩ v = v := by
  simp only [qrotate, qmul, qconj, quatOfVec, vecOfQuat]
  cases v with
  | mk x y z =>
      simp only [Vec3.mk.injEq]
      refine ⟨by ring, by ring, by ring⟩

theorem qrotate_qconj_qrotate (q : Quat) (h : qnormSq q = 1) (v : Vec3) :
    qrotate q (qrotate (qconj q) v) = v := by
  rw [qrotate_qrotate, qmul_qconj_self, h, qrotate_scalar_one]

theorem qrotate_qrotate_qconj (q : Quat) (h : qnormSq q = 1) (v : Vec3) :
    qrotate (qconj q) (qrotate q v) = v := by
  rw [qrotate_qrotate, qconj_qmul_self, h, qrotate_scalar_one]

theorem vadd_vsub_cancel (a t : Vec3) : vadd (vsub a t) t = a := by
  cases a with
  | mk x y z =>
      simp only [vadd, vsub, Vec3.mk.injEq]
      refine ⟨by ring, by ring, by ring⟩

theorem vsub_vadd_cancel (a t : Vec3) : vsub (vadd a t) t = a := by
  cases a with
  | mk x y z =>
      simp only [vadd, vsub, Vec3.mk.injEq]
      refine ⟨by ring, by ring, by ring⟩

theorem world_roundtrip (p t : Vec3) (q : Quat) (h : qnormSq q = 1) :
    vehicle_to_global_frame (global_to_vehicle_frame p t q) t q = p := by
  unfold vehicle_to_global_frame global_to_vehicle_frame
  rw [qinv_eq_qconj q h, qrotate_qconj_qrotate q h, vadd_vsub_cancel]

theorem vehicle_roundtrip (p t : Vec3) (q : Quat) (h : qnormSq q = 1) :
    global_to_vehicle_frame (vehicle_to_global_frame p t q) t q = p := by
  unfold vehicle_to_global_frame global_to_vehicle_frame
  rw [qinv_eq_qconj q h, vsub_vadd_cancel, qrotate_qrotate_qconj q h]

/-- C1: Frame Transform round-trip law.  For every point `P`, ego translation
`t`, and unit ego quaternion `q`, transforming world → vehicle → world
(`vehicle_to_global_frame` after `global_to_vehicle_frame`) and the reverse
composition return `P`; in exact arithmetic the error is zero, hence within the
1e-6 absolute tolerance in every coordinate. -/
theorem frame_transform_roundtrip (p t : Vec3) (q : Quat) (h : qnormSq q = 1) :
    (|(vehicle_to_global_frame (global_to_vehicle_frame p t q) t q).x - p.x| ≤ 1 / 1000000
      ∧ |(vehicle_to_global_frame (global_to_vehicle_frame p t q) t q).y - p.y| ≤ 1 / 1000000
      ∧ |(vehicle_to_global_frame (global_to_vehicle_frame p t q) t q).z - p.z| ≤ 1 / 1000000)
    ∧ (|(global_to_vehicle_frame (vehicle_to_global_frame p t q) t q).x - p.x| ≤ 1 / 1000000
      ∧ |(global_to_vehicle_frame (vehicle_to_global_frame p t q) t q).y - p.y| ≤ 1 / 1000000
      ∧ |(global_to_vehicle_frame (vehicle_to_global_frame p t q) t q).z - p.z| ≤ 1 / 1000000) := by
  rw [world_roundtrip p t q h, vehicle_roundtrip p t q h]
  norm_num

/-- C1 witness: the round-trip bound instantiated at the point `(1, 2, 3)`,
ego translation `(10, -4, 1/2)`, and the unit quaternion `(3/5, 4/5, 0, 0)`. -/
theorem frame_transform_roundtrip_witness :
    qnormSq ⟨3/5, 4/5, 0, 0⟩ = 1
    ∧ ((|(vehicle_to_global_frame (global_to_vehicle_frame ⟨1, 2, 3⟩ ⟨10, -4, 1/2⟩ ⟨3/5, 4/5, 0, 0⟩) ⟨10, -4, 1/2⟩ ⟨3/5, 4/5, 0, 0⟩).x - (1 : ℚ)| ≤ 1 / 1000000
      ∧ |(vehicle_to_global_frame (global_to_vehicle_frame ⟨1, 2, 3⟩ ⟨10, -4, 1/2⟩ ⟨3/5, 4/5, 0, 0⟩) ⟨10, -4, 1/2⟩ ⟨3/5, 4/5, 0, 0⟩).y - (2 : ℚ)| ≤ 1 / 1000000
      ∧ |(vehicle_to_global_frame (global_to_vehicle_frame ⟨1, 2, 3⟩ ⟨10, -4, 1/2⟩ ⟨3/5, 4/5, 0, 0⟩) ⟨10, -4, 1/2⟩ ⟨3/5, 4/5, 0, 0⟩).z - (3 : ℚ)| ≤ 1 / 1000000)
    ∧ (|(global_to_vehicle_frame (vehicle_to_global_frame ⟨1, 2, 3⟩ ⟨10, -4, 1/2⟩ ⟨3/5, 4/5, 0, 0⟩) ⟨10, -4, 1/2⟩ ⟨3/5, 4/5, 0, 0⟩).x - (1 : ℚ)| ≤ 1 / 1000000
      ∧ |(global_to_vehicle_frame (vehicle_to_global_frame ⟨1, 2, 3⟩ ⟨10, -4, 1/2⟩ ⟨3/5, 4/5, 0, 0⟩) ⟨10, -4, 1/2⟩ ⟨3/5, 4/5, 0, 0⟩).y - (2 : ℚ)| ≤ 1 / 1000000
      ∧ |(global_to_vehicle_frame (vehicle_to_global_frame ⟨1, 2, 3⟩ ⟨10, -4, 1/2⟩ ⟨3/5, 4/5, 0, 0⟩) ⟨10, -4, 1/2⟩ ⟨3/5, 4/5, 0, 0⟩).z - (3 : ℚ)| ≤ 1 / 1000000)) :=
  ⟨by norm_num [qnormSq],
   frame_transform_roundtrip ⟨1, 2, 3⟩ ⟨10, -4, 1/2⟩ ⟨3/5, 4/5, 0, 0⟩ (by norm_num [qnormSq])⟩

/-- C7: quaternion-to-Euler totality.  For every input quaternion — including
non-normalised ones overshooting the gimbal boundary — the clamped intermediate
sine term of `quaternion_to_euler_angle` lies in `[-1, 1]`, so the `arcsin`
argument is always inside its domain and the conversion is total. -/
theorem euler_sine_term_clamped_in_domain (rotation : Quat) :
    -1 ≤ eulerSineTermClamped rotation ∧ eulerSineTermClamped rotation ≤ 1 := by
  unfold eulerSineTermClamped
  split_ifs with h1 h2 <;> constructor <;> linarith

theorem v1UpdByInst_mem (m : List (String × SampleAnn)) (a : SampleAnn)
    (p : String × SampleAnn) (hp : p ∈ v1UpdByInst m a) :
    p ∈ m ∨ p = (a.instTok, a) := by
  unfold v1UpdByInst at hp
  split_ifs at hp with h
  · rcases List.mem_map.mp hp with ⟨q, hq, hqe⟩
    by_cases hqk : (q.1 == a.instTok) = true
    · right
      rw [if_pos hqk] at hqe
      exact hqe.symm
    · left
      rw [if_neg hqk] at hqe
      exact hqe ▸ hq
  · rcases List.mem_append.mp hp with h1 | h1
    · exact Or.inl h1
    · exact Or.inr (List.mem_singleton.mp h1)

theorem v1FrameAnns_fold_mem (anns : List SampleAnn) :
    ∀ (m : List (String × SampleAnn)) (p : String × SampleAnn),
      p ∈ anns.foldl (fun m a =>
        if (CATEGORY_MAPPING a.categoryName).isSome then v1UpdByInst m a else m) m →
      p ∈ m ∨ ∃ a, a ∈ anns ∧ p = (a.instTok, a)
        ∧ (CATEGORY_MAPPING a.categoryName).isSome = true := by
  induction anns with
  | nil => intro m p hp; exact Or.inl hp
  | cons a rest ih =>
      intro m p hp
      simp only [List.foldl_cons] at hp
      rcases ih _ p hp with hmem | ⟨b, hb, hpe, hbm⟩
      · by_cases hm : (CATEGORY_MAPPING a.categoryName).isSome = true
        · rw [if_pos hm] at hmem
          rcases v1UpdByInst_mem m a p hmem with h1 | h1
          · exact Or.inl h1
          · exact Or.inr ⟨a, List.mem_cons_self a rest, h1, hm⟩
        · rw [if_neg hm] at hmem
          exact Or.inl hmem
      · exact Or.inr ⟨b, List.mem_cons_of_mem a hb, hpe, hbm⟩

theorem v1FrameAnns_mem (anns : List SampleAnn) (p : String × SampleAnn)
    (hp : p ∈ v1FrameAnns anns) :
    ∃ a, a ∈ anns ∧ p = (a.instTok, a)
      ∧ (CATEGORY_MAPPING a.categoryName).isSome = true := by
  rcases v1FrameAnns_fold_mem anns [] p hp with h | h
  · exact absurd h (List.not_mem_nil p)
  · exact h

/-- C2 counterexample: at the concrete annotation with per-frame token `"ann1"`,
instance token `"inst1"` and category `vehicle.car`, the convert_v3 converter
emits the footprint Polygon with id `"ann1"` (the per-frame annotation token),
not the stable instance id `"inst1"`; converter_v1 does the same.  This refutes
the claim that every converter variant tags the footprint with the instance
id. -/
theorem ann_polygon_id_counterexample :
    v3AnnPolygonPrims [exCarAnn] = [("/annotations/car", "ann1")]
    ∧ v1AnnPolygonIds [exCarAnn] = ["ann1"]
    ∧ ("ann1" : String) ≠ "inst1" := by
  refine ⟨rfl, rfl, by decide⟩

/-- C2 amended: for every annotation that maps to a known category, convert_v3
emits its footprint Polygon on stream `/annotations/<category>` tagged with the
per-frame annotation token (`ann['token']`), and every id convert_v3 or
converter_v1 emits is the per-frame token of some annotation of the frame — not
the instance id.  Only converter_v2 selects the instance token as the object id,
and its bbox path raises `NameError` (undefined `center_vehicle`/`yaw`) before
emitting anything. -/
theorem ann_polygon_id_amended :
    (∀ (anns : List SampleAnn) (a : SampleAnn) (c : String),
       a ∈ anns → CATEGORY_MAPPING a.categoryName = some c →
       ("/annotations/" ++ c, a.token) ∈ v3AnnPolygonPrims anns)
    ∧ (∀ (anns : List SampleAnn) (pr : String × String),
       pr ∈ v3AnnPolygonPrims anns →
       ∃ a, a ∈ anns ∧ pr.2 = a.token ∧ (CATEGORY_MAPPING a.categoryName).isSome = true)
    ∧ (∀ (anns : List SampleAnn) (s : String),
       s ∈ v1AnnPolygonIds anns →
       ∃ a, a ∈ anns ∧ s = a.token ∧ (CATEGORY_MAPPING a.categoryName).isSome = true)
    ∧ (∀ a : SampleAnn, v2ObjectId a = a.instTok)
    ∧ v2ConvertBboxResult.isOk = false := by
  refine ⟨?_, ?_, ?_, fun a => rfl, rfl⟩
  · intro anns a c ha hc
    exact List.mem_filterMap.mpr ⟨a, ha, by rw [hc]; rfl⟩
  · intro anns pr hpr
    rcases List.mem_filterMap.mp hpr with ⟨a, ha, hmap⟩
    rcases hopt : CATEGORY_MAPPING a.categoryName with _ | c
    · rw [hopt] at hmap; simp at hmap
    · rw [hopt] at hmap
      refine ⟨a, ha, ?_, by rw [hopt]; rfl⟩
      have hpr2 : ("/annotations/" ++ c, a.token) = pr := by simpa using hmap
      rw [← hpr2]
  · intro anns s hs
    rcases List.mem_map.mp hs with ⟨p, hp, hpe⟩
    rcases v1FrameAnns_mem anns p hp with ⟨a, ha, hpa, hm⟩
    exact ⟨a, ha, by rw [← hpe, hpa], hm⟩

/-- C2 witness: the amended statement applied at a concrete frame with one
mapped annotation. -/
theorem ann_polygon_id_amended_witness :
    ("/annotations/car", "ann1") ∈ v3AnnPolygonPrims [exCarAnn] :=
  ann_polygon_id_amended.1 [exCarAnn] exCarAnn "car" (List.mem_singleton.mpr rfl) rfl

/-- C9: timestamp unit conversion at the boundary.  convert_v3's frame/pose
timestamp and converter_v2's emitted pose timestamp divide the integer
microsecond value by 1e6 exactly once; converter_v1's stored per-frame pose
timestamp divides by 1e6 twice (so the value it emits with the vehicle pose is
the dataset timestamp divided by 1e12, inconsistent with the once-divided
`self.timestamps` the same class uses for the metadata time range). -/
theorem timestamp_boundary_division :
    v3FrameTimestamp 1000000 = 1
    ∧ v2PoseTimestamp 1000000 = 1
    ∧ v1FrameTimestamp 1000000 = 1
    ∧ v1PoseTimestamp 1000000 = 1 / 1000000
    ∧ v1PoseTimestamp 1000000 ≠ 1
    ∧ (∀ t : ℤ, v1PoseTimestamp t = (t : ℚ) / 1000000000000) := by
  refine ⟨by norm_num [v3FrameTimestamp], by norm_num [v2PoseTimestamp],
    by norm_num [v1FrameTimestamp], by norm_num [v1PoseTimestamp],
    by norm_num [v1PoseTimestamp], fun t => ?_⟩
  unfold v1PoseTimestamp
  ring

/-- C5: historical-trajectory window closure.  The filter keeps exactly the
track points with `T - 3 s ≤ ts ≤ T` (both bounds inclusive); the Polyline is
suppressed exactly when fewer than 2 points survive; and on the concrete track
with samples at t = 0…4 s, querying at t = 4 s keeps {1, 2, 3, 4} s and emits,
while querying at t = 0 keeps {0} alone and is skipped. -/
theorem trajectory_window_closure :
    (∀ (traj : List ObjSample) (ts : ℤ) (p : ObjSample),
       p ∈ filterPastTrajectory traj ts
         ↔ p ∈ traj ∧ ts - 3000000 ≤ p.timestamp ∧ p.timestamp ≤ ts)
    ∧ (∀ (traj : List ObjSample) (ts : ℤ),
       trajectoryEmitted traj ts = false ↔ (filterPastTrajectory traj ts).length < 2)
    ∧ (filterPastTrajectory exTrackC5 4000000).map (fun p => p.timestamp)
        = [1000000, 2000000, 3000000, 4000000]
    ∧ (filterPastTrajectory exTrackC5 0).map (fun p => p.timestamp) = [0]
    ∧ trajectoryEmitted exTrackC5 0 = false
    ∧ trajectoryEmitted exTrackC5 4000000 = true := by
  refine ⟨?_, ?_, by decide, by decide, by decide, by decide⟩
  · intro traj ts p
    simp only [filterPastTrajectory, timeWindowMicros, List.mem_filter,
      decide_eq_true_eq, ge_iff_le]
    tauto
  · intro traj ts
    unfold trajectoryEmitted
    split_ifs with h <;> simp [h]

theorem trackSamplesOf_ts_mem (frames : List FrameRec) (inst : String) (t : ℤ)
    (ht : t ∈ (trackSamplesOf frames inst).map (fun s => s.timestamp)) :
    t ∈ frames.map (fun f => f.timestamp) := by
  induction frames with
  | nil => simp [trackSamplesOf] at ht
  | cons f rest ih =>
      simp only [trackSamplesOf, List.flatMap_cons, List.map_append] at ht
      rcases List.mem_append.mp ht with h | h
      · rcases List.mem_map.mp h with ⟨s, hs, hst⟩
        rcases List.mem_map.mp hs with ⟨a, _, has⟩
        have : t = f.timestamp := by rw [← hst, ← has]
        simp [this]
      · exact List.mem_cons_of_mem _ (ih h)

theorem trackSamplesOf_ts_nodup (frames : List FrameRec) (inst : String)
    (hts : (frames.map (fun f => f.timestamp)).Nodup)
    (honce : ∀ f ∈ frames, (f.anns.filter fun a => a.instTok == inst).length ≤ 1) :
    ((trackSamplesOf frames inst).map (fun s => s.timestamp)).Nodup := by
  induction frames with
  | nil => simp [trackSamplesOf]
  | cons f rest ih =>
      simp only [List.map_cons, List.nodup_cons] at hts
      obtain ⟨hf, hrest⟩ := hts
      have hr := ih hrest (fun g hg => honce g (List.mem_cons_of_mem f hg))
      simp only [trackSamplesOf] at *
      rw [List.flatMap_cons, List.map_append, List.nodup_append]
      refine ⟨?_, hr, ?_⟩
      · have h1 := honce f (List.mem_cons_self f rest)
        rcases hl : (f.anns.filter fun a => a.instTok == inst) with _ | ⟨a, _ | ⟨b, l⟩⟩
        · rw [hl]
          simp
        · rw [hl]
          simp
        · rw [hl] at h1
          simp at h1
      · intro x hx hx2
        rcases List.mem_map.mp hx with ⟨s, hs, hst⟩
        rcases List.mem_map.mp hs with ⟨a, _, has⟩
        have hxf : x = f.timestamp := by rw [← hst, ← has]
        have : x ∈ rest.map (fun f => f.timestamp) :=
          trackSamplesOf_ts_mem rest inst x hx2
        rw [hxf] at this
        exact hf this

/-- C6: track ordering invariant.  Whatever order the frames are presented in,
as long as distinct frames carry distinct timestamps and an instance is
annotated at most once per frame, the track the builder produces for that
instance is strictly increasing by timestamp at every adjacent pair. -/
theorem track_ordering_invariant (frames : List FrameRec) (inst : String)
    (hts : (frames.map (fun f => f.timestamp)).Nodup)
    (honce : ∀ f ∈ frames, (f.anns.filter fun a => a.instTok == inst).length ≤ 1) :
    List.Chain' (fun a b : ObjSample => a.timestamp < b.timestamp)
      (buildTrack frames inst) := by
  have hperm : (buildTrack frames inst).Perm (trackSamplesOf frames inst) :=
    List.mergeSort_perm (trackSamplesOf frames inst) _
  have hsorted :
      List.Pairwise (fun a b : ObjSample => a.timestamp ≤ b.timestamp)
        (buildTrack frames inst) := by
    have h := @List.sorted_mergeSort ObjSample
      (fun a b : ObjSample => decide (a.timestamp ≤ b.timestamp))
      (fun a b c hab hbc => by
        simp only [decide_eq_true_eq] at *
        omega)
      (fun a b => by
        simp only [Bool.or_eq_true, decide_eq_true_eq]
        omega)
      (trackSamplesOf frames inst)
    exact h.imp (fun hab => by simpa using hab)
  have hnodup : ((buildTrack frames inst).map (fun s => s.timestamp)).Nodup :=
    ((hperm.map (fun s => s.timestamp)).nodup_iff).mpr
      (trackSamplesOf_ts_nodup frames inst hts honce)
  have hne : List.Pairwise (fun a b : ObjSample => a.timestamp ≠ b.timestamp)
      (buildTrack frames inst) := List.pairwise_map.mp hnodup
  have hlt := (hsorted.and hne).imp
    (fun hab => lt_of_le_of_ne hab.1 hab.2)
  exact hlt.chain'

theorem findIdx?_some_bound {α : Type} (p : α → Bool) :
    ∀ (l : List α) (s i : ℕ), List.findIdx? p l s = some i → s ≤ i ∧ i - s < l.length := by
  intro l
  induction l with
  | nil => intro s i h; simp [List.findIdx?] at h
  | cons a l ih =>
      intro s i h
      rw [List.findIdx?_cons] at h
      by_cases hp : p a = true
      · rw [if_pos hp] at h
        have hsi : s = i := Option.some.inj h
        subst hsi
        exact ⟨Nat.le_refl s, by simp⟩
      · rw [if_neg hp] at h
        have := ih (s + 1) i h
        refine ⟨by omega, ?_⟩
        simp only [List.length_cons]
        omega

theorem findIdx?_lt_length {α : Type} (p : α → Bool) (l : List α) (i : ℕ)
    (h : l.findIdx? p = some i) : i < l.length := by
  have := findIdx?_some_bound p l 0 i h
  omega

theorem specWindow_head (traj : List TrackPoint) (i : ℕ) (hi : i < traj.length) :
    (specWindow traj i).head?
      = some (traj.getD (i + 1 - min 3 (i + 1)) default) := by
  have hlt : i + 1 - min 3 (i + 1) < traj.length := by omega
  rw [specWindow, List.head?_eq_getElem?, List.getElem?_drop, Nat.add_zero,
    List.getElem?_take, if_pos (by omega), List.getD_eq_getElem _ _ hlt]
  exact List.getElem?_eq_getElem hlt

theorem specWindow_getLast (traj : List TrackPoint) (i : ℕ) (hi : i < traj.length) :
    (specWindow traj i).getLast? = some (traj.getD i default) := by
  have hwl : (specWindow traj i).length = min 3 (i + 1) := by
    simp only [specWindow, List.length_drop, List.length_take]
    omega
  rw [specWindow, List.getLast?_eq_getElem?]
  rw [specWindow] at hwl
  rw [hwl, List.getElem?_drop, List.getElem?_take,
    if_pos (by omega), List.getD_eq_getElem _ _ hi]
  have hidx : i + 1 - min 3 (i + 1) + (min 3 (i + 1) - 1) = i := by omega
  rw [hidx]
  exact List.getElem?_eq_getElem hi

theorem specWindow_length (traj : List TrackPoint) (i : ℕ) (hi : i < traj.length) :
    (specWindow traj i).length = min 3 (i + 1) := by
  simp only [specWindow, List.length_drop, List.length_take]
  omega

theorem estimateVelocity_eq_spec (traj : List TrackPoint) (i : ℕ)
    (hi : i < traj.length) : estimateVelocity traj i = specVelocity traj i := by
  unfold estimateVelocity specVelocity
  by_cases hd : 0 < vnormSq (traj.getD i default).velocity
  · rw [if_pos hd, if_pos hd]
  · rw [if_neg hd, if_neg hd, specWindow_head traj i hi, specWindow_getLast traj i hi,
      specWindow_length traj i hi]
    simp only [Option.some_bind]
    unfold specFinite
    rfl

theorem projectFuture_isEmpty (ts : ℤ) (pos : Vec3) (rot : Quat) (vel : Vec3) :
    (projectFuture ts pos rot vel).isEmpty = false := rfl

theorem range_map_getD {α : Type} [Inhabited α] (n : ℕ) (f : ℕ → α) (k : ℕ)
    (hk : k < n) : ((List.range n).map f).getD k default = f k := by
  rw [List.getD_eq_getElem _ _ (by simpa using hk), List.getElem_map]
  congr 1
  exact List.getElem_range k (by simpa using hk)

/-- C3: constant-velocity projection of the Future-Motion Predictor.  Whenever
an instance passes the lookup, current-index, velocity-estimate and stationary
guards, exactly 6 future poses are produced over the 3-second horizon at
uniform 0.5 s steps: the k-th predicted position is `p + v * ((k+1) * 0.5)` with
the orientation held constant, and the single future footprint Polygon is
centred at the final step `p + 3 v` (transformed into the vehicle frame).  In
particular, from position (0,0,0) with declared velocity (2,0,0) m/s the
predicted positions are (1,0,0) … (6,0,0) and the footprint sits at (6,0,0)
(identity ego pose). -/
theorem future_projection (trajMap : List (String × List TrackPoint))
    (inst : String) (ts : ℤ) (traj : List TrackPoint) (i : ℕ) (v : Vec3)
    (h1 : lookupTraj trajMap inst = some traj)
    (h2 : List.findIdx? (fun p => p.timestamp == ts) traj = some i)
    (h3 : estimateVelocity traj i = some v)
    (h4 : ¬ vnormSq v < 1 / 100) :
    predictFuturePositions trajMap inst ts
      = some (projectFuture ts (traj.getD i default).translation
          (traj.getD i default).rotation v)
    ∧ (∀ (p0 : Vec3) (r0 : Quat),
        (projectFuture ts p0 r0 v).length = 6
        ∧ (∀ k, k < 6 →
            ((projectFuture ts p0 r0 v).getD k default).translation
              = vadd p0 (vsmul (((k : ℚ) + 1) * (1 / 2)) v)
            ∧ ((projectFuture ts p0 r0 v).getD k default).rotation = r0)
        ∧ ∀ (egoT : Vec3) (egoQ : Quat),
            futureBoxCenter (projectFuture ts p0 r0 v) egoT egoQ
              = some (global_to_vehicle_frame (vadd p0 (vsmul 3 v)) egoT egoQ))
    ∧ (predictFuturePositions exTrajMapC3 "obj" 0).map
        (fun l => l.map fun fp => fp.translation)
        = some [⟨1, 0, 0⟩, ⟨2, 0, 0⟩, ⟨3, 0, 0⟩, ⟨4, 0, 0⟩, ⟨5, 0, 0⟩, ⟨6, 0, 0⟩]
    ∧ (predictFuturePositions exTrajMapC3 "obj" 0).bind
        (fun l => futureBoxCenter l ⟨0, 0, 0⟩ ⟨1, 0, 0, 0⟩) = some ⟨6, 0, 0⟩ := by
  have hpred : predictFuturePositions exTrajMapC3 "obj" 0
      = some (projectFuture 0 ⟨0, 0, 0⟩ ⟨1, 0, 0, 0⟩ ⟨2, 0, 0⟩) := by
    have e1 : lookupTraj exTrajMapC3 "obj" = some [exFutureTrackPoint] := rfl
    have e2 : List.findIdx? (fun p => p.timestamp == (0 : ℤ)) [exFutureTrackPoint]
        = some 0 := rfl
    have e3 : estimateVelocity [exFutureTrackPoint] 0 = some ⟨2, 0, 0⟩ := by
      unfold estimateVelocity
      rw [if_pos (by norm_num [exFutureTrackPoint, vnormSq])]
      rfl
    simp only [predictFuturePositions, e1, e2, e3]
    rw [if_neg (by norm_num [vnormSq])]
    rfl
  refine ⟨?_, ?_, ?_, ?_⟩
  · simp only [predictFuturePositions, h1, h2, h3]
    rw [if_neg h4]
  · intro p0 r0
    refine ⟨rfl, ?_, ?_⟩
    · intro k hk
      unfold projectFuture
      rw [range_map_getD predictionSteps _ k (by simpa [predictionSteps] using hk)]
      constructor
      · show vadd p0 (vsmul (((k : ℚ) + 1) * timeStep) v)
          = vadd p0 (vsmul (((k : ℚ) + 1) * (1 / 2)) v)
        norm_num [timeStep]
      · rfl
    · intro egoT egoQ
      have hfb : futureBoxCenter (projectFuture ts p0 r0 v) egoT egoQ
          = some (global_to_vehicle_frame
              (vadd p0 (vsmul ((((5 : ℕ) : ℚ) + 1) * timeStep) v)) egoT egoQ) := rfl
      rw [hfb]
      norm_num [timeStep]
  · rw [hpred]
    have hr : List.range 6 = [0, 1, 2, 3, 4, 5] := rfl
    simp only [Option.map_some', projectFuture, predictionSteps, hr,
      List.map_cons, List.map_nil]
    norm_num [vadd, vsmul, timeStep, Vec3.mk.injEq]
  · rw [hpred]
    rw [Option.some_bind]
    have hlast : futureBoxCenter (projectFuture 0 ⟨0, 0, 0⟩ ⟨1, 0, 0, 0⟩ ⟨2, 0, 0⟩)
        ⟨0, 0, 0⟩ ⟨1, 0, 0, 0⟩
        = some (global_to_vehicle_frame
            (vadd ⟨0, 0, 0⟩ (vsmul ((((5 : ℕ) : ℚ) + 1) * timeStep) ⟨2, 0, 0⟩))
            ⟨0, 0, 0⟩ ⟨1, 0, 0, 0⟩) := rfl
    rw [hlast]
    norm_num [global_to_vehicle_frame, qinv, qnormSq, qrotate, qmul, qconj,
      quatOfVec, vecOfQuat, vsub, vadd, vsmul, timeStep, Vec3.mk.injEq]

/-- C3 witness: the projection applied at the concrete single-sample track of
instance `"obj"` at position (0,0,0) with declared velocity (2,0,0). -/
theorem future_projection_witness :
    lookupTraj exTrajMapC3 "obj" = some [exFutureTrackPoint]
    ∧ List.findIdx? (fun p => p.timestamp == (0 : ℤ)) [exFutureTrackPoint] = some 0
    ∧ estimateVelocity [exFutureTrackPoint] 0 = some ⟨2, 0, 0⟩
    ∧ ¬ vnormSq ⟨2, 0, 0⟩ < 1 / 100
    ∧ predictFuturePositions exTrajMapC3 "obj" 0
        = some (projectFuture 0 (([exFutureTrackPoint] : List TrackPoint).getD 0 default).translation
            (([exFutureTrackPoint] : List TrackPoint).getD 0 default).rotation ⟨2, 0, 0⟩) :=
  ⟨rfl, rfl,
   by unfold estimateVelocity; rw [if_pos (by norm_num [exFutureTrackPoint, vnormSq])]; rfl,
   by norm_num [vnormSq],
   (future_projection exTrajMapC3 "obj" 0 [exFutureTrackPoint] 0 ⟨2, 0, 0⟩ rfl rfl
     (by unfold estimateVelocity; rw [if_pos (by norm_num [exFutureTrackPoint, vnormSq])]; rfl)
     (by norm_num [vnormSq])).1⟩

/-- C4: velocity fallback and skip behaviour of the Future-Motion Predictor.
`_estimate_velocity` realises exactly the spec's priority chain
(`specVelocity`: declared velocity when non-negligible, else finite difference
over the up-to-3-sample window with the 2-sample and 0.01 s guards), and the
future primitives for an instance are suppressed exactly under the spec's skip
condition (`specSkip`: instance absent, current timestamp absent, estimate
unavailable, or speed below the 0.1 m/s stationary threshold). -/
theorem future_velocity_fallback_and_skip :
    (∀ (traj : List TrackPoint) (i : ℕ), i < traj.length →
        estimateVelocity traj i = specVelocity traj i)
    ∧ ∀ (trajMap : List (String × List TrackPoint)) (inst : String) (ts : ℤ),
        (futurePrimitivesEmitted trajMap inst ts = false ↔ specSkip trajMap inst ts) := by
  refine ⟨fun traj i hi => estimateVelocity_eq_spec traj i hi, ?_⟩
  intro trajMap inst ts
  rcases hlook : lookupTraj trajMap inst with _ | traj
  · constructor
    · intro _
      exact Or.inl hlook
    · intro _
      simp [futurePrimitivesEmitted, predictFuturePositions, hlook]
  · have hnotnone : ¬ lookupTraj trajMap inst = none := by
      rw [hlook]; simp
    rcases hidx : traj.findIdx? (fun p => p.timestamp == ts) with _ | i
    · have habs : ∀ p ∈ traj, p.timestamp ≠ ts := by
        intro p hp
        have := List.findIdx?_eq_none_iff.mp hidx p hp
        simpa using this
      constructor
      · intro _
        exact Or.inr ⟨traj, hlook, Or.inl habs⟩
      · intro _
        simp [futurePrimitivesEmitted, predictFuturePositions, hlook, hidx]
    · have hi : i < traj.length := findIdx?_lt_length _ _ _ hidx
      have hspec := estimateVelocity_eq_spec traj i hi
      rcases hest : estimateVelocity traj i with _ | v
      · have hsv : specVelocity traj i = none := hspec ▸ hest
        constructor
        · intro _
          exact Or.inr ⟨traj, hlook, Or.inr ⟨i, hidx, Or.inl hsv⟩⟩
        · intro _
          simp [futurePrimitivesEmitted, predictFuturePositions, hlook, hidx, hest]
      · have hsv : specVelocity traj i = some v := hspec ▸ hest
        by_cases hsmall : vnormSq v < 1 / 100
        · constructor
          · intro _
            exact Or.inr ⟨traj, hlook, Or.inr ⟨i, hidx, Or.inr ⟨v, hsv, hsmall⟩⟩⟩
          · intro _
            simp only [futurePrimitivesEmitted, predictFuturePositions, hlook, hidx, hest]
            rw [if_pos hsmall]
        · constructor
          · intro hemit
            exfalso
            have hTrue : futurePrimitivesEmitted trajMap inst ts = true := by
              simp only [futurePrimitivesEmitted, predictFuturePositions, hlook, hidx, hest]
              rw [if_neg hsmall]
              simp [projectFuture_isEmpty]
            rw [hTrue] at hemit
            cases hemit
          · intro hskip
            exfalso
            rcases hskip with h | ⟨traj2, hlook2, h⟩
            · exact hnotnone h
            · rw [hlook] at hlook2
              rw [show traj2 = traj from (Option.some.inj hlook2).symm] at h
              rcases h with habs | ⟨i2, hidx2, h⟩
              · have hnone3 : List.findIdx? (fun p => p.timestamp == ts) traj = none :=
                  List.findIdx?_eq_none_iff.mpr
                    (fun x hx => beq_eq_false_iff_ne.mpr (habs x hx))
                rw [hidx] at hnone3
                cases hnone3
              · rw [hidx] at hidx2
                have hii : i2 = i := (Option.some.inj hidx2).symm
                subst hii
                rcases h with hnone2 | ⟨v2, hv2, hsmall2⟩
                · rw [hsv] at hnone2
                  cases hnone2
                · rw [hsv] at hv2
                  have hvv : v2 = v := (Option.some.inj hv2).symm
                  subst hvv
                  exact hsmall hsmall2

/-- C4 witness: the velocity rule and the skip criterion instantiated at the
concrete single-sample track with declared velocity `(2, 0, 0)`. -/
theorem future_velocity_fallback_and_skip_witness :
    0 < ([exFutureTrackPoint] : List TrackPoint).length
    ∧ estimateVelocity [exFutureTrackPoint] 0 = specVelocity [exFutureTrackPoint] 0
    ∧ (futurePrimitivesEmitted exTrajMapC3 "obj" 0 = false ↔ specSkip exTrajMapC3 "obj" 0) :=
  ⟨by decide,
   future_velocity_fallback_and_skip.1 [exFutureTrackPoint] 0 (by decide),
   future_velocity_fallback_and_skip.2 exTrajMapC3 "obj" 0⟩

/-- C10: ego-trajectory emission at the public interface.  For every valid
frame index `i` the emitted ego trajectory has exactly
`min(6, number_of_frames - i)` positions — the ego positions of frames
`i … min(len(frames), i + 6) - 1` in order — and, because the guard only
requires a non-empty list, it is emitted even on the last frame, where it is a
single point; object historical trajectories instead require more than one
point. -/
theorem ego_trajectory_bounded_lookahead (poses : List Vec3) (i : ℕ)
    (h : i < poses.length) :
    (getVehicleTrajectory poses i).length = min 6 (poses.length - i)
    ∧ (∀ k, k < (getVehicleTrajectory poses i).length →
        (getVehicleTrajectory poses i).getD k default = poses.getD (i + k) default)
    ∧ vehicleTrajectoryEmitted poses i = true
    ∧ (i = poses.length - 1 → (getVehicleTrajectory poses i).length = 1)
    ∧ objectTrajectoryEmitGuard 1 = false := by
  have hlen : (getVehicleTrajectory poses i).length
      = min poses.length (i + 6) - i := by
    simp [getVehicleTrajectory]
  refine ⟨by rw [hlen]; omega, ?_, ?_, by rw [hlen]; omega, rfl⟩
  · intro k hk
    rw [hlen] at hk
    have hk2 : k < (List.range' i (min poses.length (i + 6) - i)).length := by
      simpa using hk
    unfold getVehicleTrajectory
    rw [List.getD_eq_getElem _ _ (by simpa using hk), List.getElem_map]
    congr 1
    rw [List.getElem_range' k hk2]
    omega
  · have hpos : 0 < (getVehicleTrajectory poses i).length := by
      rw [hlen]; omega
    unfold vehicleTrajectoryEmitted
    rcases hg : getVehicleTrajectory poses i with _ | ⟨a, l⟩
    · rw [hg] at hpos
      simp at hpos
    · rfl

/-- C10 witness: the single-frame scene `[(0, 0, 0)]` queried at its last frame
index 0 — the trajectory has exactly one position and is still emitted. -/
theorem ego_trajectory_bounded_lookahead_witness :
    0 < ([⟨0, 0, 0⟩] : List Vec3).length
    ∧ ((getVehicleTrajectory [⟨0, 0, 0⟩] 0).length = min 6 (([⟨0, 0, 0⟩] : List Vec3).length - 0)
      ∧ (∀ k, k < (getVehicleTrajectory [⟨0, 0, 0⟩] 0).length →
          (getVehicleTrajectory [⟨0, 0, 0⟩] 0).getD k default
            = ([⟨0, 0, 0⟩] : List Vec3).getD (0 + k) default)
      ∧ vehicleTrajectoryEmitted [⟨0, 0, 0⟩] 0 = true
      ∧ (0 = ([⟨0, 0, 0⟩] : List Vec3).length - 1 → (getVehicleTrajectory [⟨0, 0, 0⟩] 0).length = 1)
      ∧ objectTrajectoryEmitGuard 1 = false) :=
  ⟨by decide, ego_trajectory_bounded_lookahead [⟨0, 0, 0⟩] 0 (by decide)⟩

theorem normSq2_nonneg (v : Vec2) : 0 ≤ normSq2 v := by
  unfold normSq2
  positivity

theorem mergeCond_iff_cosine (v w : Vec2) (hv : normSq2 v ≠ 0) (hw : normSq2 w ≠ 0) :
    (mergeCond v w = true ↔
      1 - |((dot2 v w : ℚ) : ℝ)| /
          (Real.sqrt ((normSq2 v : ℚ) : ℝ) * Real.sqrt ((normSq2 w : ℚ) : ℝ))
        < 1 / 100) := by
  have hv0 : (0 : ℝ) < ((normSq2 v : ℚ) : ℝ) := by
    have : (0 : ℚ) < normSq2 v := lt_of_le_of_ne (normSq2_nonneg v) (Ne.symm hv)
    exact_mod_cast this
  have hw0 : (0 : ℝ) < ((normSq2 w : ℚ) : ℝ) := by
    have : (0 : ℚ) < normSq2 w := lt_of_le_of_ne (normSq2_nonneg w) (Ne.symm hw)
    exact_mod_cast this
  have hb : (0 : ℝ) < Real.sqrt ((normSq2 v : ℚ) : ℝ) * Real.sqrt ((normSq2 w : ℚ) : ℝ) :=
    mul_pos (Real.sqrt_pos.mpr hv0) (Real.sqrt_pos.mpr hw0)
  have ha : (0 : ℝ) ≤ |((dot2 v w : ℚ) : ℝ)| := abs_nonneg _
  have hq : (mergeCond v w = true)
      ↔ (9801 : ℝ) * ((normSq2 v : ℚ) : ℝ) * ((normSq2 w : ℚ) : ℝ)
          < 10000 * ((dot2 v w : ℚ) : ℝ) ^ 2 := by
    rw [mergeCond, decide_eq_true_eq]
    constructor
    · intro h
      exact_mod_cast h
    · intro h
      exact_mod_cast h
  rw [hq]
  have hstep1 : (1 - |((dot2 v w : ℚ) : ℝ)| /
        (Real.sqrt ((normSq2 v : ℚ) : ℝ) * Real.sqrt ((normSq2 w : ℚ) : ℝ)) < 1 / 100)
      ↔ (99 / 100 : ℝ)
          * (Real.sqrt ((normSq2 v : ℚ) : ℝ) * Real.sqrt ((normSq2 w : ℚ) : ℝ))
          < |((dot2 v w : ℚ) : ℝ)| := by
    rw [← lt_div_iff₀ hb]
    constructor <;> intro h <;> linarith
  rw [hstep1]
  have hc : (0 : ℝ) ≤ (99 / 100 : ℝ)
      * (Real.sqrt ((normSq2 v : ℚ) : ℝ) * Real.sqrt ((normSq2 w : ℚ) : ℝ)) := by
    positivity
  rw [← pow_lt_pow_iff_left₀ hc ha (two_ne_zero)]
  rw [mul_pow, mul_pow, Real.sq_sqrt hv0.le, Real.sq_sqrt hw0.le, sq_abs]
  constructor <;> intro h <;> nlinarith

theorem pedInner_absorb (dirI : Vec2) (dirs : List Vec2) (i : ℕ) (L : List ℕ)
    (g : List ℕ) : L.foldl (pedInnerStep dirI dirs i) (g, []) = (g, []) := by
  induction L generalizing g with
  | nil => rfl
  | cons j L ih =>
      rw [List.foldl_cons]
      have hstep : pedInnerStep dirI dirs i (g, []) j = (g, []) := by
        simp [pedInnerStep]
      rw [hstep]
      exact ih g

theorem pedInner_pair (dirs : List Vec2) (L : List ℕ) :
    L.foldl (pedInnerStep (dirs.getD 0 default) dirs 0) ([], [1])
      = if 1 ∈ L ∧ mergeCond (dirs.getD 0 default) (dirs.getD 1 default) = true
        then ([1], []) else ([], [1]) := by
  induction L with
  | nil =>
      rw [List.foldl_nil, if_neg (fun h => (List.not_mem_nil 1) h.1)]
  | cons j L ih =>
      rw [List.foldl_cons]
      by_cases hj : j = 1
      · subst hj
        by_cases hm : mergeCond (dirs.getD 0 default) (dirs.getD 1 default) = true
        · have hstep : pedInnerStep (dirs.getD 0 default) dirs 0 ([], [1]) 1
              = ([1], []) := by
            unfold pedInnerStep
            rw [if_pos ⟨List.mem_singleton.mpr rfl, by decide⟩, if_pos hm]
            rfl
          rw [hstep, pedInner_absorb,
            if_pos ⟨List.mem_cons_self 1 L, hm⟩]
        · have hstep : pedInnerStep (dirs.getD 0 default) dirs 0 ([], [1]) 1
              = ([], [1]) := by
            unfold pedInnerStep
            rw [if_pos ⟨List.mem_singleton.mpr rfl, by decide⟩, if_neg hm]
          rw [hstep, ih, if_neg (fun h => hm h.2), if_neg (fun h => hm h.2)]
      · have hstep : pedInnerStep (dirs.getD 0 default) dirs 0 ([], [1]) j
            = ([], [1]) := by
          unfold pedInnerStep
          rw [if_neg (fun h => hj (List.mem_singleton.mp h.1))]
        rw [hstep, ih]
        have hcond : (1 ∈ j :: L ∧ mergeCond (dirs.getD 0 default) (dirs.getD 1 default) = true)
            ↔ (1 ∈ L ∧ mergeCond (dirs.getD 0 default) (dirs.getD 1 default) = true) := by
          rw [List.mem_cons]
          constructor
          · rintro ⟨h1 | h1, h2⟩
            · exact absurd h1.symm hj
            · exact ⟨h1, h2⟩
          · rintro ⟨h1, h2⟩
            exact ⟨Or.inr h1, h2⟩
        rw [if_congr hcond rfl rfl]

theorem unionPed_pair (u w : Vec2) (neighbors : ℕ → List ℕ) :
    unionPedGroups [u, w] neighbors
      = if 1 ∈ neighbors 0 ∧ mergeCond u w = true then [[0, 1]] else [[0], [1]] := by
  have hgu : ([u, w] : List Vec2).getD 0 default = u := rfl
  have hgw : ([u, w] : List Vec2).getD 1 default = w := rfl
  have hin : (neighbors 0).foldl (pedInnerStep u [u, w] 0) ([], [1])
      = if 1 ∈ neighbors 0 ∧ mergeCond u w = true then ([1], []) else ([], [1]) := by
    have h := pedInner_pair [u, w] (neighbors 0)
    rw [hgu, hgw] at h
    exact h
  unfold unionPedGroups
  rw [show List.range ([u, w] : List Vec2).length = [0, 1] from rfl]
  rw [List.foldl_cons, List.foldl_cons, List.foldl_nil]
  by_cases hc : 1 ∈ neighbors 0 ∧ mergeCond u w = true
  · have hstep0 : pedOuterStep [u, w] neighbors ([], [0, 1]) 0 = ([[0, 1]], []) := by
      unfold pedOuterStep
      rw [if_pos (show (0 : ℕ) ∈ [0, 1] by simp)]
      rw [show (([0, 1] : List ℕ).erase 0) = [1] from rfl, hgu, hin, if_pos hc]
      rfl
    rw [hstep0]
    have hstep1 : pedOuterStep [u, w] neighbors ([[0, 1]], []) 1 = ([[0, 1]], []) := by
      unfold pedOuterStep
      rw [if_neg (show ¬ (1 : ℕ) ∈ ([] : List ℕ) by simp)]
    rw [hstep1, if_pos hc]
  · have hstep0 : pedOuterStep [u, w] neighbors ([], [0, 1]) 0 = ([[0]], [1]) := by
      unfold pedOuterStep
      rw [if_pos (show (0 : ℕ) ∈ [0, 1] by simp)]
      rw [show (([0, 1] : List ℕ).erase 0) = [1] from rfl, hgu, hin, if_neg hc]
      rfl
    rw [hstep0]
    have hstep1 : pedOuterStep [u, w] neighbors ([[0]], [1]) 1 = ([[0], [1]], []) := by
      unfold pedOuterStep
      rw [if_pos (show (1 : ℕ) ∈ [1] by simp)]
      rw [show (([1] : List ℕ).erase 1) = [] from rfl, hgw, pedInner_absorb]
      rfl
    rw [hstep1, if_neg hc]

/-- C8: pedestrian-crossing merge criterion.  The square-root-free test the
embedding uses is exactly the source's `1 - |cos| < 0.01` on the angle between
the two principal-axis vectors (first conjunct, over ℝ); in the two-polygon
loop a candidate is merged into the leader's group exactly when it is a
spatial-index neighbour and the criterion holds (second conjunct); concretely,
near-parallel directions (1,0) and (100,1) merge into one group while (1,0) and
(1,1) at 45° stay separate. -/
theorem ped_crossing_merge :
    (∀ (v w : Vec2), normSq2 v ≠ 0 → normSq2 w ≠ 0 →
        (mergeCond v w = true ↔
          1 - |((dot2 v w : ℚ) : ℝ)| /
              (Real.sqrt ((normSq2 v : ℚ) : ℝ) * Real.sqrt ((normSq2 w : ℚ) : ℝ))
            < 1 / 100))
    ∧ (∀ (u w : Vec2) (neighbors : ℕ → List ℕ),
        unionPedGroups [u, w] neighbors
          = if 1 ∈ neighbors 0 ∧ mergeCond u w = true then [[0, 1]] else [[0], [1]])
    ∧ unionPedGroups [⟨1, 0⟩, ⟨100, 1⟩] (fun _ => [0, 1]) = [[0, 1]]
    ∧ unionPedGroups [⟨1, 0⟩, ⟨1, 1⟩] (fun _ => [0, 1]) = [[0], [1]] := by
  refine ⟨mergeCond_iff_cosine, unionPed_pair, ?_, ?_⟩
  · rw [unionPed_pair]
    rw [if_pos ⟨by simp, by
      simp only [mergeCond, decide_eq_true_eq]
      norm_num [normSq2, dot2]⟩]
  · rw [unionPed_pair]
    rw [if_neg (fun h => by
      have hm := h.2
      simp only [mergeCond, decide_eq_true_eq] at hm
      norm_num [normSq2, dot2] at hm)]

/-- C8 witness: the cosine-criterion equivalence applied at the 45° pair
(1,0), (1,1). -/
theorem ped_crossing_merge_witness :
    normSq2 ⟨1, 0⟩ ≠ 0 ∧ normSq2 ⟨1, 1⟩ ≠ 0
    ∧ (mergeCond ⟨1, 0⟩ ⟨1, 1⟩ = true ↔
        1 - |((dot2 ⟨1, 0⟩ ⟨1, 1⟩ : ℚ) : ℝ)| /
            (Real.sqrt ((normSq2 ⟨1, 0⟩ : ℚ) : ℝ) * Real.sqrt ((normSq2 ⟨1, 1⟩ : ℚ) : ℝ))
          < 1 / 100) :=
  ⟨by norm_num [normSq2], by norm_num [normSq2],
   ped_crossing_merge.1 ⟨1, 0⟩ ⟨1, 1⟩ (by norm_num [normSq2]) (by norm_num [normSq2])⟩

/-- C6 witness: the ordering invariant at a concrete 3-frame scene presented
out of order (timestamps 2 s, 0 s, 1 s). -/
theorem track_ordering_invariant_witness :
    (exFramesC6.map (fun f => f.timestamp)).Nodup
    ∧ (∀ f ∈ exFramesC6, (f.anns.filter fun a => a.instTok == "obj").length ≤ 1)
    ∧ List.Chain' (fun a b : ObjSample => a.timestamp < b.timestamp)
        (buildTrack exFramesC6 "obj") :=
  ⟨by decide, by decide,
   track_ordering_invariant exFramesC6 "obj" (by decide) (by decide)⟩

end NuXviz
